import Mathlib

/-!
Verification development for the CognitoResume skill-matching engine
(`ai_pipeline/pipeline/skill_match/`): a shallow embedding, in Lean 4, of
`TextNormalizer` (data_processor.py), `SkillMatcher._find_best_match`,
the aggregation part of `SkillMatcher.match_skills`, and
`SkillMatcher._generate_metadata` (skill_matcher.py), together with
theorems settling the specification claims about them.

Modelling conventions:
* Python strings are modelled as `List Char` (called `Str`); the text
  operations of the source (`str.lower`, `str.strip`, `str.split(sep)`,
  `str.translate` deleting `string.punctuation`, `re.sub` with a
  case-insensitive whole-word pattern) are re-implemented structurally on
  `List Char` so that the kernel can evaluate them.  ASCII is modelled
  exactly; the embedding does not model non-ASCII case folding.
* Python floats are modelled as exact rationals; `round(x, n)` is modelled
  as round-half-to-even at `n` decimal digits, which is Python's rounding
  mode on decimal-exact values.
* Calls into external libraries (the sentence-transformers cosine
  `util.cos_sim`, rapidfuzz's `fuzz.token_set_ratio`, and the embedding
  model itself) are modelled as explicit function parameters: they are not
  code of this repository.
-/

/-- Python strings, modelled as lists of characters. -/
abbrev Str := List Char

/-- Python's whitespace class for `str.strip()`: space, tab, newline,
carriage return, vertical tab, form feed (ASCII fragment). -/
def pyIsSpace (c : Char) : Bool :=
  c.toNat = 32 || c.toNat = 9 || c.toNat = 10 || c.toNat = 13 || c.toNat = 11 || c.toNat = 12

/-- `string.punctuation` from the Python standard library: the printable
ASCII characters that are neither alphanumeric nor whitespace, i.e. the
code ranges 33-47, 58-64, 91-96 and 123-126. -/
def isPunctChar (c : Char) : Bool :=
  (33 ≤ c.toNat && c.toNat ≤ 47) || (58 ≤ c.toNat && c.toNat ≤ 64) ||
    (91 ≤ c.toNat && c.toNat ≤ 96) || (123 ≤ c.toNat && c.toNat ≤ 126)

/-- Word characters for the regex class `\w` (ASCII fragment): letters,
digits and underscore. -/
def isWordChar (c : Char) : Bool :=
  c.isAlphanum || c.toNat = 95

/-- ASCII lower-casing of a single character, as `str.lower()` acts on the
ASCII range: `A`-`Z` (codes 65-90) map 32 codes up, everything else is
fixed. -/
def pyLowerChar (c : Char) : Char :=
  if 65 ≤ c.toNat && c.toNat ≤ 90 then Char.ofNat (c.toNat + 32) else c

/-- `str.lower()`. -/
def lowerStr (l : Str) : Str := l.map pyLowerChar

/-- `str.strip()`: drop leading and trailing whitespace. -/
def stripStr (l : Str) : Str :=
  ((l.dropWhile pyIsSpace).reverse.dropWhile pyIsSpace).reverse

/-- `text.translate(str.maketrans('', '', string.punctuation))`: delete
every punctuation character. -/
def removePunctStr (l : Str) : Str :=
  l.filter (fun c => !isPunctChar c)

/-- If `sep` is a prefix of the second list, return the remainder. -/
def dropPrefixOf : Str → Str → Option Str
  | [], rest => some rest
  | _ :: _, [] => none
  | k :: ks, c :: cs => if k = c then dropPrefixOf ks cs else none

/-- Fuelled worker for `pySplit`; the fuel dominates the length of the
text, so the top-level call never exhausts it. -/
def splitAux (sep : Str) : Nat → Str → Str → List Str
  | 0, acc, l => [acc.reverse ++ l]
  | _ + 1, acc, [] => [acc.reverse]
  | fuel + 1, acc, c :: cs =>
    match dropPrefixOf sep (c :: cs) with
    | some rest => acc.reverse :: splitAux sep fuel [] rest
    | none => splitAux sep fuel (c :: acc) cs

/-- Python `str.split(sep)` for a non-empty separator: split on every
non-overlapping occurrence of `sep`, scanning left to right. -/
def pySplit (sep : Str) (l : Str) : List Str :=
  splitAux sep (l.length + 1) [] l

/-- Round-half-to-even of a rational to an integer: the rounding mode of
Python's builtin `round`. -/
def rhe (x : ℚ) : ℤ :=
  if x - ⌊x⌋ < 1/2 then ⌊x⌋
  else if 1/2 < x - ⌊x⌋ then ⌊x⌋ + 1
  else if Even ⌊x⌋ then ⌊x⌋ else ⌊x⌋ + 1

/-- Python `round(x, 4)` on exact rationals. -/
def round4 (x : ℚ) : ℚ := (rhe (x * 10000) : ℚ) / 10000

/-- Python `round(x, 2)` on exact rationals. -/
def round2 (x : ℚ) : ℚ := (rhe (x * 100) : ℚ) / 100

theorem rhe_intCast (k : ℤ) : rhe (k : ℚ) = k := by
  unfold rhe
  simp [Int.floor_intCast]

theorem floor_le_rhe (x : ℚ) : ⌊x⌋ ≤ rhe x := by
  unfold rhe
  split_ifs <;> omega

theorem rhe_le_floor_add_one (x : ℚ) : rhe x ≤ ⌊x⌋ + 1 := by
  unfold rhe
  split_ifs <;> omega

theorem rhe_mono {x y : ℚ} (h : x ≤ y) : rhe x ≤ rhe y := by
  rcases lt_or_eq_of_le (Int.floor_mono h) with hf | hf
  · calc rhe x ≤ ⌊x⌋ + 1 := rhe_le_floor_add_one x
      _ ≤ ⌊y⌋ := by omega
      _ ≤ rhe y := floor_le_rhe y
  · unfold rhe
    rw [← hf]
    have hfx : (⌊x⌋ : ℚ) ≤ x := Int.floor_le x
    split_ifs <;> first | omega | linarith

theorem round4_mono {x y : ℚ} (h : x ≤ y) : round4 x ≤ round4 y := by
  unfold round4
  have hr : rhe (x * 10000) ≤ rhe (y * 10000) := rhe_mono (by linarith)
  have h10 : (0:ℚ) < 10000 := by norm_num
  exact (div_le_div_iff_of_pos_right h10).mpr (by exact_mod_cast hr)

theorem round4_scaled (k : ℤ) : round4 ((k : ℚ) / 10000) = (k : ℚ) / 10000 := by
  unfold round4
  have h : ((k : ℚ) / 10000) * 10000 = (k : ℚ) := by field_simp
  rw [h, rhe_intCast]

theorem round4_zero : round4 0 = 0 := by
  have := round4_scaled 0
  norm_num at this
  simpa using this

theorem round4_one : round4 1 = 1 := by
  have := round4_scaled 10000
  norm_num at this
  exact this

theorem round4_neg_one : round4 (-1) = -1 := by
  have := round4_scaled (-10000)
  norm_num at this
  exact this

theorem round4_nonneg {x : ℚ} (h : 0 ≤ x) : 0 ≤ round4 x := by
  have := round4_mono h
  rwa [round4_zero] at this

/-- The `normalization` block of the skill-match configuration: the five
step toggles read by `TextNormalizer.normalize` via `config.get(_, False)`. -/
structure NormalizationConfig where
  apply_acronyms : Bool
  apply_synonyms : Bool
  lowercase : Bool
  strip_whitespace : Bool
  remove_punctuation : Bool

/-- Case-insensitive character comparison (ASCII), used to model the
`re.IGNORECASE` flag. -/
def ciEqChar (a b : Char) : Bool := pyLowerChar a = pyLowerChar b

/-- Case-insensitive prefix match: if `key` is a prefix of the second list
up to ASCII case, return the remainder. -/
def ciDropPrefixOf : Str → Str → Option Str
  | [], rest => some rest
  | _ :: _, [] => none
  | k :: ks, c :: cs => if ciEqChar k c then ciDropPrefixOf ks cs else none

/-- Regex word-boundary test between two neighbouring positions: exactly
one side is a word character (a missing side counts as non-word). -/
def boundaryBetween (a b : Option Char) : Bool :=
  (a.elim false isWordChar) != (b.elim false isWordChar)

/-- Fuelled worker for `reSubWordCI`: scan left to right, and at each
position try to match `key` case-insensitively with a word boundary on
both sides; on a match emit `rep` and resume after the matched text (the
boundary for the next attempt is taken from the original text, as `re.sub`
does).  The fuel dominates the length of the text. -/
def reSubAux (key rep : Str) : Nat → Option Char → Str → Str
  | 0, _, l => l
  | _ + 1, _, [] => []
  | fuel + 1, prev, c :: cs =>
    match ciDropPrefixOf key (c :: cs) with
    | some rest =>
      if boundaryBetween prev (some c) &&
          boundaryBetween (((c :: cs).take key.length).getLast?) rest.head? then
        rep ++ reSubAux key rep fuel (((c :: cs).take key.length).getLast?) rest
      else
        c :: reSubAux key rep fuel (some c) cs
    | none => c :: reSubAux key rep fuel (some c) cs

/-- `re.sub(r'\b' + re.escape(key) + r'\b', rep, text, flags=re.IGNORECASE)`:
replace every whole-word, case-insensitive occurrence of the literal `key`. -/
def reSubWordCI (key rep : Str) (text : Str) : Str :=
  reSubAux key rep (text.length + 1) none text

/-- The synonym scan of `TextNormalizer.normalize`: for the first canonical
term whose lower-cased form or one of whose lower-cased synonyms equals the
lower-cased input, return the canonical term lower-cased.  Python dicts
iterate in insertion order, so the map is modelled as an association list. -/
def synonymScan (input : Str) : List (Str × List Str) → Option Str
  | [] => none
  | (canonical, synonyms) :: rest =>
    if input = lowerStr canonical || (synonyms.map lowerStr).contains input then
      some (lowerStr canonical)
    else synonymScan input rest

/-- `TextNormalizer` from data_processor.py: the normalization toggles plus
the synonym and acronym maps (each loaded from a JSON object, hence ordered
association lists here). -/
structure TextNormalizer where
  config : NormalizationConfig
  synonym_map : List (Str × List Str)
  acronym_map : List (Str × Str)

/-- `TextNormalizer.normalize` (data_processor.py lines 13-36): empty text
returns empty; else optionally expand acronyms (whole-word, case-insensitive
replacement of each key by its canonical form, in map order); optionally
short-circuit to the lower-cased canonical term on a synonym hit; then
optionally lowercase, strip whitespace, and remove punctuation. -/
def TextNormalizer.normalize (n : TextNormalizer) (text : Str) : Str :=
  if text = [] then []
  else
    let afterAcronyms :=
      if n.config.apply_acronyms then
        n.acronym_map.foldl (fun t kv => reSubWordCI kv.1 kv.2 t) text
      else text
    match (if n.config.apply_synonyms then
             synonymScan (lowerStr afterAcronyms) n.synonym_map
           else none) with
    | some canonical => canonical
    | none =>
      let afterLower :=
        if n.config.lowercase then lowerStr afterAcronyms else afterAcronyms
      let afterStrip :=
        if n.config.strip_whitespace then stripStr afterLower else afterLower
      if n.config.remove_punctuation then removePunctStr afterStrip else afterStrip

/-- `TextNormalizer.lexical_similarity`: rapidfuzz's `fuzz.token_set_ratio`
(an external library, modelled as the parameter `fuzz`, which returns a
percentage) applied to the normalized forms, scaled to 0-1. -/
def TextNormalizer.lexical_similarity (n : TextNormalizer) (fuzz : Str → Str → ℚ)
    (text1 text2 : Str) : ℚ :=
  fuzz (n.normalize text1) (n.normalize text2) / 100

/-- The `components` sub-dict of a per-skill match result. -/
structure Components where
  semantic : ℚ
  lexical : ℚ
deriving DecidableEq

/-- The dict returned by `SkillMatcher._find_best_match`: the original job
skill, the best-matching candidate skill (Python `None` when no pair ever
beat the starting score), the rounded best combined score, and its rounded
components.  The Python key `match` is a Lean keyword, hence `matched`. -/
structure MatchResult where
  skill : Str
  matched : Option Str
  sim : ℚ
  components : Components
deriving DecidableEq

/-- The running state of the loops in `_find_best_match`
(`best_match`, `best_score`, `best_semantic_sim`, `best_lexical_sim`). -/
structure BestSt where
  best_match : Option Str
  best_score : ℚ
  best_semantic_sim : ℚ
  best_lexical_sim : ℚ

/-- The configuration-derived fields of a `SkillMatcher` instance, plus the
two external similarity primitives: `cos_sim` stands for
`sentence_transformers.util.cos_sim` on embedding vectors of type `V`, and
`fuzz` for `rapidfuzz.fuzz.token_set_ratio` (returning a percentage). -/
structure SkillMatcher (V : Type) where
  strong_threshold : ℚ
  weak_threshold : ℚ
  nice_threshold : ℚ
  semantic_weight : ℚ
  lexical_weight : ℚ
  required_skill_weight : ℚ
  optional_skill_weight : ℚ
  normalizer : TextNormalizer
  cos_sim : V → V → ℚ
  fuzz : Str → Str → ℚ

/-- `self.required_skill_relative_weight` computed in `SkillMatcher.__init__`. -/
def SkillMatcher.required_skill_relative_weight {V : Type} (M : SkillMatcher V) : ℚ :=
  M.required_skill_weight / (M.required_skill_weight + M.optional_skill_weight)

/-- `self.optional_skill_relative_weight` computed in `SkillMatcher.__init__`. -/
def SkillMatcher.optional_skill_relative_weight {V : Type} (M : SkillMatcher V) : ℚ :=
  M.optional_skill_weight / (M.required_skill_weight + M.optional_skill_weight)

/-- One iteration of the inner loop of `_find_best_match` (lines 97-109):
skip the candidate when its embedding is missing, otherwise compute the
semantic, lexical and combined scores and keep the candidate only when its
combined score strictly beats the running best. -/
def considerCandidate {V : Type} (M : SkillMatcher V) (embedding_map : Str → Option V)
    (part_embedding : V) (part : Str) (st : BestSt) (cand_skill : Str) : BestSt :=
  match embedding_map cand_skill with
  | none => st
  | some cand_embedding =>
    let semantic_sim := M.cos_sim part_embedding cand_embedding
    let lexical_sim := M.normalizer.lexical_similarity M.fuzz part cand_skill
    let score := M.semantic_weight * semantic_sim + M.lexical_weight * lexical_sim
    if st.best_score < score then
      ⟨some cand_skill, score, semantic_sim, lexical_sim⟩
    else st

/-- One iteration of the outer loop of `_find_best_match` (lines 93-109):
skip the part when its embedding is missing, otherwise fold the inner loop
over all candidate skills. -/
def considerPart {V : Type} (M : SkillMatcher V) (embedding_map : Str → Option V)
    (candidate_skills : List Str) (st : BestSt) (part : Str) : BestSt :=
  match embedding_map part with
  | none => st
  | some part_embedding =>
    candidate_skills.foldl (considerCandidate M embedding_map part_embedding part) st

/-- The disjunction parts of a job skill:
`[s.strip() for s in job_skill.split(" or ")]`. -/
def orParts (job_skill : Str) : List Str :=
  (pySplit " or ".data job_skill).map stripStr

/-- `SkillMatcher._find_best_match` (skill_matcher.py lines 85-119). -/
def SkillMatcher.find_best_match {V : Type} (M : SkillMatcher V) (job_skill : Str)
    (candidate_skills : List Str) (embedding_map : Str → Option V) : MatchResult :=
  let final := (orParts job_skill).foldl
    (considerPart M embedding_map candidate_skills) ⟨none, 0, 0, 0⟩
  { skill := job_skill
    matched := final.best_match
    sim := round4 final.best_score
    components := ⟨round4 final.best_semantic_sim, round4 final.best_lexical_sim⟩ }

/-- One step of the spec-side pair scan: skip the (part, candidate) pair
when either embedding is missing, else score it like the source's inner
loop does. -/
def considerPair {V : Type} (M : SkillMatcher V) (embedding_map : Str → Option V)
    (st : BestSt) (pc : Str × Str) : BestSt :=
  match embedding_map pc.1 with
  | none => st
  | some pe => considerCandidate M embedding_map pe pc.1 st pc.2

/-- The best-match resolver as the specification words it (spec section 4.4):
split the job skill on the literal `" or "` into trimmed alternative parts,
match every part independently against every candidate skill — i.e. scan the
flattened list of all (part, candidate) pairs in order — keep the overall
best strictly-improving score, and report the original un-split job skill
string.  To be compared with `SkillMatcher.find_best_match`. -/
def find_best_match_spec {V : Type} (M : SkillMatcher V) (job_skill : Str)
    (candidate_skills : List Str) (embedding_map : Str → Option V) : MatchResult :=
  let pairs := (orParts job_skill).flatMap
    (fun p => candidate_skills.map (fun c => (p, c)))
  let final := pairs.foldl (considerPair M embedding_map) ⟨none, 0, 0, 0⟩
  { skill := job_skill
    matched := final.best_match
    sim := round4 final.best_score
    components := ⟨round4 final.best_semantic_sim, round4 final.best_lexical_sim⟩ }

/-- An optional-skill result: the `MatchResult` dict extended in place with
the key `ok` (`res["ok"] = res["sim"] >= self.nice_threshold`). -/
structure NiceResult where
  result : MatchResult
  ok : Bool

/-- The `summary` dict of `match_skills` (lines 216-221). -/
structure Summary where
  req_strong : Nat
  req_weak : Nat
  req_missing : Nat
  nice_relevant : Nat

/-- The `results` dict built by `match_skills` (lines 232-247). -/
structure Results where
  score : ℚ
  required_match_score : ℚ
  optional_match_score : ℚ
  strong : List MatchResult
  weak : List MatchResult
  missing : List MatchResult
  nice : List NiceResult
  summary : Summary
  relative_required : ℚ
  relative_optional : ℚ

/-- `np.mean` on a list of rationals (the source only applies it to
non-empty lists, guarding with `if req_scores`). -/
def npMean (l : List ℚ) : ℚ := l.sum / l.length

/-- The aggregation part of `SkillMatcher.match_skills` (lines 209-247):
mark optional results `ok`, partition required results by the two
thresholds, build the summary counts, compute the two mean scores (0 for an
empty list), and combine them with the relative skill weights into the
headline score, rounding the three reported scores to 4 decimal places. -/
def aggregate_results (strong_threshold weak_threshold nice_threshold : ℚ)
    (required_rel optional_rel : ℚ)
    (required_results optional_results : List MatchResult) : Results :=
  let optional_ok := optional_results.map
    (fun r => NiceResult.mk r (decide (nice_threshold ≤ r.sim)))
  let strong := required_results.filter (fun r => decide (strong_threshold ≤ r.sim))
  let weak := required_results.filter
    (fun r => decide (weak_threshold ≤ r.sim) && decide (r.sim < strong_threshold))
  let missing := required_results.filter (fun r => decide (r.sim < weak_threshold))
  let summary : Summary :=
    ⟨strong.length, weak.length, missing.length, (optional_ok.filter (fun r => r.ok)).length⟩
  let req_scores := required_results.map (fun r => r.sim)
  let required_match_score := if req_scores.isEmpty then 0 else npMean req_scores
  let opt_scores := optional_results.map (fun r => r.sim)
  let optional_match_score := if opt_scores.isEmpty then 0 else npMean opt_scores
  let skill_component_score :=
    required_rel * required_match_score + optional_rel * optional_match_score
  { score := round4 skill_component_score
    required_match_score := round4 required_match_score
    optional_match_score := round4 optional_match_score
    strong := strong
    weak := weak
    missing := missing
    nice := optional_ok
    summary := summary
    relative_required := round4 required_rel
    relative_optional := round4 optional_rel }

/-- The body of the `try` block of `match_skills` after the embedding map
has been built (lines 206-247): one `_find_best_match` per job skill, then
the aggregation. -/
def SkillMatcher.match_skills_try {V : Type} (M : SkillMatcher V)
    (candidate_skills job_required job_optional : List Str)
    (embedding_map : Str → Option V) : Results :=
  aggregate_results M.strong_threshold M.weak_threshold M.nice_threshold
    M.required_skill_relative_weight M.optional_skill_relative_weight
    (job_required.map (fun skill => M.find_best_match skill candidate_skills embedding_map))
    (job_optional.map (fun skill => M.find_best_match skill candidate_skills embedding_map))

/-- The `source_identifiers` block of the metadata record. -/
structure SourceIds where
  candidate_type : String
  candidate_id : String
  job_type : String
  job_id : String

/-- The `config_used` block of the metadata record: the configuration
values `_generate_metadata` copies verbatim out of `self.config` (lines
137-149).  The threshold/weight dicts are association lists; the two data
file paths are copied as-is. -/
structure ConfigUsed where
  model_name : Option String
  thresholds : List (String × ℚ)
  similarity_weights : List (String × ℚ)
  skill_scoring : List (String × ℚ)
  normalization : NormalizationConfig
  synonym_file : String
  acronym_file : String

/-- The `input_counts` block added to successful metadata (lines 167-171). -/
structure InputCounts where
  total_candidate_skills : Nat
  total_job_required_skills : Nat
  total_job_optional_skills : Nat

/-- The `matching_results_summary` block added to successful metadata
(lines 172-177). -/
structure ResultsSummary where
  overall_score : ℚ
  required_match_score : ℚ
  optional_match_score : ℚ
  summary_counts : Summary

/-- The `matching_details` block of the metadata record. -/
structure MatchingDetails where
  status : String
  config_used : ConfigUsed
  processing_time_seconds : ℚ
  error_message : Option String
  input_counts : Option InputCounts

/-- The metadata dict returned by `_generate_metadata`.  The constant
`auditing_notes` block carries no run-dependent data and is omitted; the
wall-clock timestamp is a parameter. -/
structure MetadataRec where
  source_identifiers : SourceIds
  timestamp : String
  matching_details : MatchingDetails
  matching_results_summary : Option ResultsSummary

/-- The configuration snapshot a matcher instance reads when generating
metadata (`self.config.model_settings`, thresholds, weights, normalization,
and the two data-file paths). -/
structure ConfigSnapshot where
  model_name : Option String
  skill_thresholds : List (String × ℚ)
  similarity_weights : List (String × ℚ)
  scoring_weights : List (String × ℚ)
  normalization : NormalizationConfig
  synonym_file : String
  acronym_file : String

/-- `SkillMatcher._generate_metadata` (skill_matcher.py lines 121-179):
status is `success` exactly when `error_message` is `None`; the config
snapshot — including the synonym/acronym file paths and the model name —
is copied into `config_used` verbatim; input counts and a results summary
are attached only to successful records carrying a (truthy) results dict. -/
def generate_metadata (cfg : ConfigSnapshot) (timestamp : String)
    (candidate_source_type candidate_id job_source_type job_id : String)
    (processing_time : ℚ)
    (candidate_skills_list job_required job_optional : List Str)
    (results : Option Results) (error_message : Option String) : MetadataRec :=
  let status := if error_message.isNone then "success" else "failed"
  let base : MetadataRec :=
    { source_identifiers :=
        ⟨candidate_source_type, candidate_id, job_source_type, job_id⟩
      timestamp := timestamp
      matching_details :=
        { status := status
          config_used :=
            { model_name := cfg.model_name
              thresholds := cfg.skill_thresholds
              similarity_weights := cfg.similarity_weights
              skill_scoring := cfg.scoring_weights
              normalization := cfg.normalization
              synonym_file := cfg.synonym_file
              acronym_file := cfg.acronym_file }
          processing_time_seconds := round2 processing_time
          error_message := error_message
          input_counts := none }
      matching_results_summary := none }
  match results with
  | some r =>
    if status = "success" then
      { base with
        matching_details :=
          { base.matching_details with
            input_counts := some
              ⟨candidate_skills_list.length, job_required.length, job_optional.length⟩ }
        matching_results_summary := some
          ⟨r.score, r.required_match_score, r.optional_match_score, r.summary⟩ }
    else base
  | none => base

/-- Python exceptions that the outer skeleton of `match_skills` can raise
to its caller. -/
inductive PyError where
  | nameError (name : String)

/-- The value `match_skills` returns: `{"results": results or {}, "metadata": metadata}`. -/
structure MatchOutput where
  results : Option Results
  metadata : MetadataRec

/-- The try/except/finally skeleton of `SkillMatcher.match_skills` (lines
188-267).  Everything inside the `try` block — building the embedding map
(which calls the embedding model and may raise) and the matching itself —
is abstracted as `body`: `Except.ok r` when the body runs to completion
leaving `results = r`, `Except.error msg` when some step raises an
exception rendering as `msg`, which `except Exception as e` catches and
logs.  Per Python 3 semantics (PEP 3110) the binding of `e` is deleted when
the except suite exits, so the name `e` visible to the `finally` block is
modelled by `eBinding = none`.  The `finally` block evaluates
`str(e) if results is None else None`: on the failure path `results` is
`None`, the lookup of the unbound name `e` raises `NameError`, and that
exception propagates out of `match_skills` instead of the return value. -/
def match_skills_outer (gen : Option Results → Option String → MetadataRec)
    (body : Except String Results) : Except PyError MatchOutput :=
  let results : Option Results :=
    match body with
    | .ok r => some r
    | .error _ => none
  let eBinding : Option String := none
  match results with
  | some r => .ok ⟨some r, gen (some r) none⟩
  | none =>
    match eBinding with
    | some msg => .ok ⟨none, gen none (some msg)⟩
    | none => .error (PyError.nameError "e")

theorem foldl_preserve {α β : Type} (f : β → α → β) (P : β → Prop)
    (hf : ∀ st a, P st → P (f st a)) :
    ∀ (l : List α) (st : β), P st → P (l.foldl f st)
  | [], _, h => h
  | _ :: t, st, h => foldl_preserve f P hf t _ (hf st _ h)

theorem bestSt_nonneg {V : Type} (M : SkillMatcher V)
    (embedding_map : Str → Option V) (parts candidate_skills : List Str) :
    0 ≤ (parts.foldl (considerPart M embedding_map candidate_skills)
      ⟨none, 0, 0, 0⟩).best_score := by
  have hcand : ∀ (pe : V) (part : Str) (st : BestSt) (c : Str),
      0 ≤ st.best_score →
      0 ≤ (considerCandidate M embedding_map pe part st c).best_score := by
    intro pe part st c h
    unfold considerCandidate
    cases embedding_map c with
    | none => exact h
    | some ce =>
      dsimp only
      split
      · next hlt => exact le_of_lt (lt_of_le_of_lt h hlt)
      · exact h
  have hpart : ∀ (st : BestSt) (p : Str),
      0 ≤ st.best_score →
      0 ≤ (considerPart M embedding_map candidate_skills st p).best_score := by
    intro st p h
    unfold considerPart
    cases embedding_map p with
    | none => exact h
    | some pe =>
      exact foldl_preserve _ (fun (st : BestSt) => 0 ≤ st.best_score) (hcand pe p) candidate_skills st h
  exact foldl_preserve _ (fun (st : BestSt) => 0 ≤ st.best_score) hpart parts _ le_rfl

/-- C1: the spec requires that when any upstream step inside `match_skills`
raises, the call still returns a record whose metadata has
`matching_details.status = "failed"` and carries the error message.  The
code instead raises: in the `finally` block the name `e` is already unbound
(Python deletes the `except ... as e` binding when the handler suite exits),
so evaluating `str(e) if results is None else None` raises `NameError` and
no metadata record is returned at all.  This theorem evaluates the embedded
control-flow skeleton on every failing body: the result is the propagated
`NameError`, not a `MatchOutput`. -/
theorem c1_failure_raises_name_error
    (gen : Option Results → Option String → MetadataRec) (msg : String) :
    match_skills_outer gen (Except.error msg) = Except.error (PyError.nameError "e") := rfl

/-- C8 (amended): `_generate_metadata` performs no redaction at all — there
is no denylist and no placeholder; the synonym-file path, acronym-file path
and model name from the configuration are copied into the persisted
metadata verbatim, so runs differing in those values produce different
metadata.  (The `[REDACTED]` denylist the spec describes exists only in the
parse stage, `parse/parser.py`, not in the skill matcher.) -/
theorem c8_no_redaction_paths_verbatim (cfg : ConfigSnapshot) (ts : String)
    (cst cid jst jid : String) (pt : ℚ) (csl jr jo : List Str)
    (results : Option Results) (em : Option String) :
    ((generate_metadata cfg ts cst cid jst jid pt csl jr jo results em).matching_details.config_used.synonym_file
        = cfg.synonym_file) ∧
    ((generate_metadata cfg ts cst cid jst jid pt csl jr jo results em).matching_details.config_used.acronym_file
        = cfg.acronym_file) ∧
    ((generate_metadata cfg ts cst cid jst jid pt csl jr jo results em).matching_details.config_used.model_name
        = cfg.model_name) := by
  unfold generate_metadata
  cases results with
  | none => exact ⟨rfl, rfl, rfl⟩
  | some r =>
    dsimp only
    split
    · exact ⟨rfl, rfl, rfl⟩
    · exact ⟨rfl, rfl, rfl⟩

/-- C8 counterexample: two runs identical except for the configured
synonym-file path (a secret per the claim's denylist of file paths) produce
different persisted metadata records, contradicting the claimed redaction
hyperproperty. -/
theorem c8_counterexample :
    generate_metadata
        ⟨some "all-MiniLM-L6-v2", [], [], [], ⟨false, false, true, true, true⟩,
         "ai_pipeline/data/synonyms.json", "ai_pipeline/data/acronyms.json"⟩
        "2024-01-01T00:00:00+00:00" "file_system" "cand" "file_system" "job"
        0 [] [] [] none none ≠
      generate_metadata
        ⟨some "all-MiniLM-L6-v2", [], [], [], ⟨false, false, true, true, true⟩,
         "/home/alice/private/synonyms.json", "ai_pipeline/data/acronyms.json"⟩
        "2024-01-01T00:00:00+00:00" "file_system" "cand" "file_system" "job"
        0 [] [] [] none none := by
  intro h
  have h2 := congrArg (fun m => m.matching_details.config_used.synonym_file) h
  simp only [generate_metadata] at h2
  exact absurd h2 (by decide)

/-- C9: the `sim` reported by `_find_best_match` is never negative, for
every matcher configuration, every pair of external similarity functions,
and every embedding map: the running best score starts at 0 and is replaced
only by strictly greater scores. -/
theorem c9_sim_nonneg {V : Type} (M : SkillMatcher V) (job_skill : Str)
    (candidate_skills : List Str) (embedding_map : Str → Option V) :
    0 ≤ (M.find_best_match job_skill candidate_skills embedding_map).sim := by
  unfold SkillMatcher.find_best_match
  exact round4_nonneg (bestSt_nonneg M embedding_map _ _)

/-- A concrete matcher configuration (thresholds 0.85/0.65/0.6, similarity
weights 0.7/0.3, scoring weights 0.8/0.2, plain normalization, constant
external similarity functions) used to instantiate theorems on concrete
inputs. -/
def trivMatcher : SkillMatcher Unit :=
  { strong_threshold := 17/20
    weak_threshold := 13/20
    nice_threshold := 3/5
    semantic_weight := 7/10
    lexical_weight := 3/10
    required_skill_weight := 4/5
    optional_skill_weight := 1/5
    normalizer := ⟨⟨false, false, true, true, true⟩, [], []⟩
    cos_sim := fun _ _ => 1
    fuzz := fun _ _ => 100 }

/-- A concrete per-skill result with a perfect score. -/
def mrOne : MatchResult := ⟨"python".data, some "python".data, 1, ⟨1, 1⟩⟩

/-- C2 (amended): the two reported mean scores are the arithmetic means of
the `sim` values *rounded to 4 decimal places* (not the exact means), with
0 for an empty list and no division error; the headline score is
`round4(relative_required_weight * mean_req + relative_optional_weight *
mean_opt)` computed from the *unrounded* means, where the two relative
weights are the scoring weights normalized by their sum and are
complementary (they sum to 1). -/
theorem c2_scores_amended {V : Type} (M : SkillMatcher V)
    (R O : List MatchResult)
    (hw : 0 < M.required_skill_weight + M.optional_skill_weight) :
    (aggregate_results M.strong_threshold M.weak_threshold M.nice_threshold
        M.required_skill_relative_weight M.optional_skill_relative_weight R O).required_match_score
      = round4 (if R = [] then 0 else npMean (R.map (fun r => r.sim))) ∧
    (aggregate_results M.strong_threshold M.weak_threshold M.nice_threshold
        M.required_skill_relative_weight M.optional_skill_relative_weight R O).optional_match_score
      = round4 (if O = [] then 0 else npMean (O.map (fun r => r.sim))) ∧
    (R = [] →
      (aggregate_results M.strong_threshold M.weak_threshold M.nice_threshold
        M.required_skill_relative_weight M.optional_skill_relative_weight R O).required_match_score = 0) ∧
    (O = [] →
      (aggregate_results M.strong_threshold M.weak_threshold M.nice_threshold
        M.required_skill_relative_weight M.optional_skill_relative_weight R O).optional_match_score = 0) ∧
    M.required_skill_relative_weight + M.optional_skill_relative_weight = 1 ∧
    (aggregate_results M.strong_threshold M.weak_threshold M.nice_threshold
        M.required_skill_relative_weight M.optional_skill_relative_weight R O).score
      = round4 (M.required_skill_relative_weight * (if R = [] then 0 else npMean (R.map (fun r => r.sim)))
          + M.optional_skill_relative_weight * (if O = [] then 0 else npMean (O.map (fun r => r.sim)))) := by
  have hsum : M.required_skill_relative_weight + M.optional_skill_relative_weight = 1 := by
    unfold SkillMatcher.required_skill_relative_weight SkillMatcher.optional_skill_relative_weight
    rw [div_add_div_same, div_self (ne_of_gt hw)]
  have hifR : (if (R.map (fun r => r.sim)).isEmpty then (0:ℚ) else npMean (R.map (fun r => r.sim)))
      = (if R = [] then 0 else npMean (R.map (fun r => r.sim))) := by
    by_cases hR : R = [] <;> simp [hR]
  have hifO : (if (O.map (fun r => r.sim)).isEmpty then (0:ℚ) else npMean (O.map (fun r => r.sim)))
      = (if O = [] then 0 else npMean (O.map (fun r => r.sim))) := by
    by_cases hO : O = [] <;> simp [hO]
  refine ⟨?_, ?_, ?_, ?_, hsum, ?_⟩
  · dsimp only [aggregate_results]
    rw [hifR]
  · dsimp only [aggregate_results]
    rw [hifO]
  · intro hR
    dsimp only [aggregate_results]
    rw [hifR, if_pos hR, round4_zero]
  · intro hO
    dsimp only [aggregate_results]
    rw [hifO, if_pos hO, round4_zero]
  · dsimp only [aggregate_results]
    rw [hifR, hifO]

/-- C2 counterexample: with required `sim` values 0.1, 0.1 and 0.2 the
reported `required_match_score` is `round4(2/15) = 0.1333`, which differs
from the exact arithmetic mean `2/15` the claim asserts. -/
theorem c2_counterexample :
    (aggregate_results 1 (1/2) (1/2) (4/5) (1/5)
        [⟨"python".data, some "python".data, 1/10, ⟨1/10, 1/10⟩⟩,
         ⟨"sql".data, some "sql".data, 1/10, ⟨1/10, 1/10⟩⟩,
         ⟨"ml".data, some "ml".data, 2/10, ⟨2/10, 2/10⟩⟩]
        []).required_match_score
      ≠ ((1/10 : ℚ) + 1/10 + 2/10) / 3 := by
  have hmean : npMean [(1:ℚ)/10, 1/10, 2/10] = 2/15 := by
    unfold npMean
    norm_num
  have hfloor : ⌊(2/15 : ℚ) * 10000⌋ = 1333 := by
    rw [show (2/15 : ℚ) * 10000 = 4000/3 by norm_num]
    rw [Int.floor_eq_iff] <;> norm_num
  have hr4 : round4 (2/15) = 1333/10000 := by
    unfold round4 rhe
    rw [hfloor]
    rw [if_pos (by rw [show (2/15 : ℚ) * 10000 = 4000/3 by norm_num]; norm_num)]
    norm_num
  dsimp only [aggregate_results]
  simp only [List.map_cons, List.map_nil, List.isEmpty_cons, if_false, Bool.false_eq_true]
  rw [hmean, hr4]
  norm_num

/-- C2 witness: the amended statement instantiated at the concrete matcher,
one perfect required result and no optional results. -/
theorem c2_scores_witness :
    (0 < trivMatcher.required_skill_weight + trivMatcher.optional_skill_weight) ∧
    ((aggregate_results trivMatcher.strong_threshold trivMatcher.weak_threshold trivMatcher.nice_threshold
        trivMatcher.required_skill_relative_weight trivMatcher.optional_skill_relative_weight [mrOne] []).required_match_score
      = round4 (if ([mrOne] : List MatchResult) = [] then 0 else npMean ([mrOne].map (fun r => r.sim))) ∧
    (aggregate_results trivMatcher.strong_threshold trivMatcher.weak_threshold trivMatcher.nice_threshold
        trivMatcher.required_skill_relative_weight trivMatcher.optional_skill_relative_weight [mrOne] []).optional_match_score
      = round4 (if ([] : List MatchResult) = [] then 0 else npMean (([] : List MatchResult).map (fun r => r.sim))) ∧
    (([mrOne] : List MatchResult) = [] →
      (aggregate_results trivMatcher.strong_threshold trivMatcher.weak_threshold trivMatcher.nice_threshold
        trivMatcher.required_skill_relative_weight trivMatcher.optional_skill_relative_weight [mrOne] []).required_match_score = 0) ∧
    (([] : List MatchResult) = [] →
      (aggregate_results trivMatcher.strong_threshold trivMatcher.weak_threshold trivMatcher.nice_threshold
        trivMatcher.required_skill_relative_weight trivMatcher.optional_skill_relative_weight [mrOne] []).optional_match_score = 0) ∧
    trivMatcher.required_skill_relative_weight + trivMatcher.optional_skill_relative_weight = 1 ∧
    (aggregate_results trivMatcher.strong_threshold trivMatcher.weak_threshold trivMatcher.nice_threshold
        trivMatcher.required_skill_relative_weight trivMatcher.optional_skill_relative_weight [mrOne] []).score
      = round4 (trivMatcher.required_skill_relative_weight * (if ([mrOne] : List MatchResult) = [] then 0 else npMean ([mrOne].map (fun r => r.sim)))
          + trivMatcher.optional_skill_relative_weight * (if ([] : List MatchResult) = [] then 0 else npMean (([] : List MatchResult).map (fun r => r.sim))))) :=
  ⟨by norm_num [trivMatcher], c2_scores_amended trivMatcher [mrOne] [] (by norm_num [trivMatcher])⟩

theorem length_filter_three {α : Type} (p q s : α → Bool) (l : List α)
    (h : ∀ x ∈ l, (p x = true ∧ q x = false ∧ s x = false) ∨
                  (p x = false ∧ q x = true ∧ s x = false) ∨
                  (p x = false ∧ q x = false ∧ s x = true)) :
    (l.filter p).length + (l.filter q).length + (l.filter s).length = l.length := by
  induction l with
  | nil => simp
  | cons a t ih =>
    have ha := h a (List.mem_cons_self a t)
    have ihh := ih (fun x hx => h x (List.mem_cons_of_mem a hx))
    rcases ha with ⟨h1, h2, h3⟩ | ⟨h1, h2, h3⟩ | ⟨h1, h2, h3⟩ <;>
      simp [List.filter_cons, h1, h2, h3] <;> omega

theorem threshold_trichotomy (st wt : ℚ) (hws : wt ≤ st) (x : MatchResult) :
    ((decide (st ≤ x.sim)) = true ∧
        (decide (wt ≤ x.sim) && decide (x.sim < st)) = false ∧
        (decide (x.sim < wt)) = false) ∨
    ((decide (st ≤ x.sim)) = false ∧
        (decide (wt ≤ x.sim) && decide (x.sim < st)) = true ∧
        (decide (x.sim < wt)) = false) ∨
    ((decide (st ≤ x.sim)) = false ∧
        (decide (wt ≤ x.sim) && decide (x.sim < st)) = false ∧
        (decide (x.sim < wt)) = true) := by
  rcases le_or_lt st x.sim with h | h
  · exact Or.inl ⟨by simp [h], by simp [not_lt.mpr h], by simp [not_lt.mpr (le_trans hws h)]⟩
  · rcases le_or_lt wt x.sim with h2 | h2
    · exact Or.inr (Or.inl ⟨by simp [not_le.mpr h], by simp [h2, h], by simp [not_lt.mpr h2]⟩)
    · exact Or.inr (Or.inr ⟨by simp [not_le.mpr (lt_of_lt_of_le h2 hws)],
        by simp [not_le.mpr h2], by simp [h2]⟩)

/-- C6 (amended): with `weak_threshold ≤ strong_threshold` the categorization
of a required result is by `sim ≥ strong` → strong, `weak ≤ sim < strong` →
weak, `sim < weak` → missing; a `sim` exactly at the strong threshold is
strong (and not weak); and a `sim` exactly at the weak threshold is weak
(and not missing) *provided the two thresholds are distinct* — when
`weak_threshold = strong_threshold`, a `sim` equal to both lands in the
strong bucket instead. -/
theorem c6_threshold_boundaries_amended (st wt nt rr ro : ℚ)
    (R O : List MatchResult) (hws : wt ≤ st) (r : MatchResult) (hr : r ∈ R) :
    (st ≤ r.sim → r ∈ (aggregate_results st wt nt rr ro R O).strong) ∧
    (wt ≤ r.sim → r.sim < st → r ∈ (aggregate_results st wt nt rr ro R O).weak) ∧
    (r.sim < wt → r ∈ (aggregate_results st wt nt rr ro R O).missing) ∧
    (r.sim = st → r ∈ (aggregate_results st wt nt rr ro R O).strong ∧
       r ∉ (aggregate_results st wt nt rr ro R O).weak) ∧
    (wt < st → r.sim = wt → r ∈ (aggregate_results st wt nt rr ro R O).weak ∧
       r ∉ (aggregate_results st wt nt rr ro R O).missing) := by
  dsimp only [aggregate_results]
  refine ⟨?_, ?_, ?_, ?_, ?_⟩
  · intro h
    simp [List.mem_filter, hr, h]
  · intro h1 h2
    simp [List.mem_filter, hr, h1, h2]
  · intro h
    simp [List.mem_filter, hr, h]
  · intro h
    constructor
    · simp [List.mem_filter, hr, le_of_eq h.symm]
    · intro hmem
      have := (List.mem_filter.mp hmem).2
      simp only [Bool.and_eq_true, decide_eq_true_eq] at this
      exact absurd (h ▸ this.2) (lt_irrefl st)
  · intro hlt h
    constructor
    · simp [List.mem_filter, hr, le_of_eq h.symm, h ▸ hlt]
    · intro hmem
      have := (List.mem_filter.mp hmem).2
      simp only [decide_eq_true_eq] at this
      exact absurd (h ▸ this) (lt_irrefl wt)

/-- C6 counterexample: with `weak_threshold = strong_threshold = 1/2` a
required result whose `sim` is exactly `1/2` is categorized strong, not
weak — the weak bucket is empty — refuting the claim that a `sim` equal to
the weak threshold is categorized weak whenever `weak ≤ strong`. -/
theorem c6_counterexample :
    (aggregate_results (1/2) (1/2) (1/2) 1 0
        [⟨"a".data, some "b".data, 1/2, ⟨1/2, 1/2⟩⟩] []).weak = [] ∧
    (aggregate_results (1/2) (1/2) (1/2) 1 0
        [⟨"a".data, some "b".data, 1/2, ⟨1/2, 1/2⟩⟩] []).strong
      = [⟨"a".data, some "b".data, 1/2, ⟨1/2, 1/2⟩⟩] := by
  have h1 : ((1:ℚ)/2 ≤ 1/2) := le_refl _
  have h2 : ¬((1:ℚ)/2 < 1/2) := lt_irrefl _
  dsimp only [aggregate_results]
  constructor
  · simp [List.filter_cons, h1, h2]
  · simp [List.filter_cons, h1]

/-- C6 witness: the amended statement instantiated at thresholds 0.85/0.65
and a perfect required result. -/
theorem c6_threshold_witness :
    ((13:ℚ)/20 ≤ 17/20) ∧ (mrOne ∈ [mrOne]) ∧
    (((17:ℚ)/20 ≤ mrOne.sim → mrOne ∈ (aggregate_results (17/20) (13/20) (3/5) (4/5) (1/5) [mrOne] []).strong) ∧
     ((13:ℚ)/20 ≤ mrOne.sim → mrOne.sim < 17/20 → mrOne ∈ (aggregate_results (17/20) (13/20) (3/5) (4/5) (1/5) [mrOne] []).weak) ∧
     (mrOne.sim < 13/20 → mrOne ∈ (aggregate_results (17/20) (13/20) (3/5) (4/5) (1/5) [mrOne] []).missing) ∧
     (mrOne.sim = 17/20 → mrOne ∈ (aggregate_results (17/20) (13/20) (3/5) (4/5) (1/5) [mrOne] []).strong ∧
        mrOne ∉ (aggregate_results (17/20) (13/20) (3/5) (4/5) (1/5) [mrOne] []).weak) ∧
     ((13:ℚ)/20 < 17/20 → mrOne.sim = 13/20 → mrOne ∈ (aggregate_results (17/20) (13/20) (3/5) (4/5) (1/5) [mrOne] []).weak ∧
        mrOne ∉ (aggregate_results (17/20) (13/20) (3/5) (4/5) (1/5) [mrOne] []).missing)) :=
  ⟨by norm_num, List.mem_cons_self mrOne [],
    c6_threshold_boundaries_amended (17/20) (13/20) (3/5) (4/5) (1/5) [mrOne] []
      (by norm_num) mrOne (List.mem_cons_self mrOne [])⟩

/-- C10: given `weak_threshold ≤ strong_threshold`, the strong/weak/missing
lists of `match_skills` partition the required results: the three summary
counts add up to the number of job-required skills, and every required
result is a member of exactly one of the three lists. -/
theorem c10_partition {V : Type} (M : SkillMatcher V)
    (candidate_skills job_required job_optional : List Str)
    (embedding_map : Str → Option V)
    (hws : M.weak_threshold ≤ M.strong_threshold) :
    ((M.match_skills_try candidate_skills job_required job_optional embedding_map).summary.req_strong
        + (M.match_skills_try candidate_skills job_required job_optional embedding_map).summary.req_weak
        + (M.match_skills_try candidate_skills job_required job_optional embedding_map).summary.req_missing
      = job_required.length) ∧
    ∀ r ∈ job_required.map (fun s => M.find_best_match s candidate_skills embedding_map),
      (r ∈ (M.match_skills_try candidate_skills job_required job_optional embedding_map).strong ∧
         r ∉ (M.match_skills_try candidate_skills job_required job_optional embedding_map).weak ∧
         r ∉ (M.match_skills_try candidate_skills job_required job_optional embedding_map).missing) ∨
      (r ∉ (M.match_skills_try candidate_skills job_required job_optional embedding_map).strong ∧
         r ∈ (M.match_skills_try candidate_skills job_required job_optional embedding_map).weak ∧
         r ∉ (M.match_skills_try candidate_skills job_required job_optional embedding_map).missing) ∨
      (r ∉ (M.match_skills_try candidate_skills job_required job_optional embedding_map).strong ∧
         r ∉ (M.match_skills_try candidate_skills job_required job_optional embedding_map).weak ∧
         r ∈ (M.match_skills_try candidate_skills job_required job_optional embedding_map).missing) := by
  dsimp only [SkillMatcher.match_skills_try, aggregate_results]
  constructor
  · rw [length_filter_three _ _ _ _
      (fun x _ => threshold_trichotomy M.strong_threshold M.weak_threshold hws x)]
    exact List.length_map _ _
  · intro r hr
    have hnot : ∀ (p : MatchResult → Bool) (l : List MatchResult),
        p r = false → r ∉ l.filter p := by
      intro p l hp hm
      exact absurd ((List.mem_filter.mp hm).2) (by simp [hp])
    rcases threshold_trichotomy M.strong_threshold M.weak_threshold hws r with
      ⟨h1, h2, h3⟩ | ⟨h1, h2, h3⟩ | ⟨h1, h2, h3⟩
    · exact Or.inl ⟨List.mem_filter.mpr ⟨hr, h1⟩, hnot _ _ h2, hnot _ _ h3⟩
    · exact Or.inr (Or.inl ⟨hnot _ _ h1, List.mem_filter.mpr ⟨hr, h2⟩, hnot _ _ h3⟩)
    · exact Or.inr (Or.inr ⟨hnot _ _ h1, hnot _ _ h2, List.mem_filter.mpr ⟨hr, h3⟩⟩)

/-- C10 witness: the partition statement instantiated at the concrete
matcher, one required job skill and no candidates. -/
theorem c10_partition_witness :
    (trivMatcher.weak_threshold ≤ trivMatcher.strong_threshold) ∧
    (((trivMatcher.match_skills_try [] ["python".data] [] (fun _ => some ())).summary.req_strong
        + (trivMatcher.match_skills_try [] ["python".data] [] (fun _ => some ())).summary.req_weak
        + (trivMatcher.match_skills_try [] ["python".data] [] (fun _ => some ())).summary.req_missing
      = (["python".data] : List Str).length) ∧
    ∀ r ∈ (["python".data] : List Str).map (fun s => trivMatcher.find_best_match s [] (fun _ => some ())),
      (r ∈ (trivMatcher.match_skills_try [] ["python".data] [] (fun _ => some ())).strong ∧
         r ∉ (trivMatcher.match_skills_try [] ["python".data] [] (fun _ => some ())).weak ∧
         r ∉ (trivMatcher.match_skills_try [] ["python".data] [] (fun _ => some ())).missing) ∨
      (r ∉ (trivMatcher.match_skills_try [] ["python".data] [] (fun _ => some ())).strong ∧
         r ∈ (trivMatcher.match_skills_try [] ["python".data] [] (fun _ => some ())).weak ∧
         r ∉ (trivMatcher.match_skills_try [] ["python".data] [] (fun _ => some ())).missing) ∨
      (r ∉ (trivMatcher.match_skills_try [] ["python".data] [] (fun _ => some ())).strong ∧
         r ∉ (trivMatcher.match_skills_try [] ["python".data] [] (fun _ => some ())).weak ∧
         r ∈ (trivMatcher.match_skills_try [] ["python".data] [] (fun _ => some ())).missing)) :=
  ⟨by norm_num [trivMatcher],
   c10_partition trivMatcher [] ["python".data] [] (fun _ => some ()) (by norm_num [trivMatcher])⟩

theorem considerCandidate_le {V : Type} (M : SkillMatcher V)
    (embedding_map : Str → Option V) (pe : V) (part : Str) (st : BestSt) (c : Str) :
    st.best_score ≤ (considerCandidate M embedding_map pe part st c).best_score := by
  unfold considerCandidate
  cases embedding_map c with
  | none => exact le_rfl
  | some ce =>
    dsimp only
    split
    · next h => exact le_of_lt h
    · exact le_rfl

theorem foldl_best_score_le {α : Type} (f : BestSt → α → BestSt)
    (hf : ∀ st a, st.best_score ≤ (f st a).best_score) :
    ∀ (l : List α) (st : BestSt), st.best_score ≤ (l.foldl f st).best_score
  | [], _ => le_rfl
  | a :: t, st => le_trans (hf st a) (foldl_best_score_le f hf t (f st a))

theorem considerPart_le {V : Type} (M : SkillMatcher V)
    (embedding_map : Str → Option V) (candidate_skills : List Str)
    (st : BestSt) (p : Str) :
    st.best_score ≤ (considerPart M embedding_map candidate_skills st p).best_score := by
  unfold considerPart
  cases embedding_map p with
  | none => exact le_rfl
  | some pe =>
    exact foldl_best_score_le _ (considerCandidate_le M embedding_map pe p) candidate_skills st

theorem inner_fold_reaches {V : Type} (M : SkillMatcher V)
    (embedding_map : Str → Option V) (pe : V) (part : Str)
    {c : Str} {ce : V} (hce : embedding_map c = some ce) :
    ∀ (cands : List Str), c ∈ cands → ∀ (st : BestSt),
      M.semantic_weight * M.cos_sim pe ce +
          M.lexical_weight * M.normalizer.lexical_similarity M.fuzz part c
        ≤ (cands.foldl (considerCandidate M embedding_map pe part) st).best_score := by
  intro cands
  induction cands with
  | nil => intro h; cases h
  | cons a t ih =>
    intro hmem st
    simp only [List.foldl_cons]
    rcases List.mem_cons.mp hmem with heq | hmem2
    · subst heq
      have hstep : M.semantic_weight * M.cos_sim pe ce +
            M.lexical_weight * M.normalizer.lexical_similarity M.fuzz part c
          ≤ (considerCandidate M embedding_map pe part st c).best_score := by
        unfold considerCandidate
        rw [hce]
        dsimp only
        split
        · exact le_rfl
        · next h => exact not_lt.mp h
      exact le_trans hstep
        (foldl_best_score_le _ (considerCandidate_le M embedding_map pe part) t _)
    · exact ih hmem2 _

theorem outer_fold_reaches {V : Type} (M : SkillMatcher V)
    (embedding_map : Str → Option V) (candidate_skills : List Str)
    {p c : Str} {pe ce : V}
    (hpe : embedding_map p = some pe) (hce : embedding_map c = some ce)
    (hc : c ∈ candidate_skills) :
    ∀ (parts : List Str), p ∈ parts → ∀ (st : BestSt),
      M.semantic_weight * M.cos_sim pe ce +
          M.lexical_weight * M.normalizer.lexical_similarity M.fuzz p c
        ≤ (parts.foldl (considerPart M embedding_map candidate_skills) st).best_score := by
  intro parts
  induction parts with
  | nil => intro h; cases h
  | cons a t ih =>
    intro hmem st
    simp only [List.foldl_cons]
    rcases List.mem_cons.mp hmem with heq | hmem2
    · subst heq
      have hstep : M.semantic_weight * M.cos_sim pe ce +
            M.lexical_weight * M.normalizer.lexical_similarity M.fuzz p c
          ≤ (considerPart M embedding_map candidate_skills st p).best_score := by
        unfold considerPart
        rw [hpe]
        exact inner_fold_reaches M embedding_map pe p hce candidate_skills hc st
      exact le_trans hstep
        (foldl_best_score_le _ (considerPart_le M embedding_map candidate_skills) t _)
    · exact ih hmem2 _

theorem bestSt_pos_isSome {V : Type} (M : SkillMatcher V)
    (embedding_map : Str → Option V) (parts candidate_skills : List Str) :
    0 < (parts.foldl (considerPart M embedding_map candidate_skills)
        ⟨none, 0, 0, 0⟩).best_score →
    ((parts.foldl (considerPart M embedding_map candidate_skills)
        ⟨none, 0, 0, 0⟩).best_match).isSome = true := by
  have hcand : ∀ (pe : V) (part : Str) (st : BestSt) (c : Str),
      (0 < st.best_score → st.best_match.isSome = true) →
      (0 < (considerCandidate M embedding_map pe part st c).best_score →
        ((considerCandidate M embedding_map pe part st c).best_match).isSome = true) := by
    intro pe part st c h
    unfold considerCandidate
    cases embedding_map c with
    | none => exact h
    | some ce =>
      dsimp only
      split
      · intro _; rfl
      · exact h
  have hpart : ∀ (st : BestSt) (p : Str),
      (0 < st.best_score → st.best_match.isSome = true) →
      (0 < (considerPart M embedding_map candidate_skills st p).best_score →
        ((considerPart M embedding_map candidate_skills st p).best_match).isSome = true) := by
    intro st p h
    unfold considerPart
    cases embedding_map p with
    | none => exact h
    | some pe =>
      exact foldl_preserve _
        (fun (st : BestSt) => 0 < st.best_score → st.best_match.isSome = true)
        (hcand pe p) candidate_skills st h
  exact foldl_preserve _
    (fun (st : BestSt) => 0 < st.best_score → st.best_match.isSome = true)
    hpart parts _ (fun h => absurd h (lt_irrefl 0))

theorem inner_fold_skip {V : Type} (M : SkillMatcher V)
    (embedding_map : Str → Option V) (pe : V) (part : Str) :
    ∀ (cands : List Str), (∀ c ∈ cands, embedding_map c = none) →
      ∀ (st : BestSt), cands.foldl (considerCandidate M embedding_map pe part) st = st := by
  intro cands
  induction cands with
  | nil => intro _ st; rfl
  | cons a t ih =>
    intro h st
    simp only [List.foldl_cons]
    have ha : considerCandidate M embedding_map pe part st a = st := by
      unfold considerCandidate
      rw [h a (List.mem_cons_self a t)]
    rw [ha]
    exact ih (fun c hc => h c (List.mem_cons_of_mem a hc)) st

theorem outer_fold_skip {V : Type} (M : SkillMatcher V)
    (embedding_map : Str → Option V) (candidate_skills : List Str) :
    ∀ (parts : List Str),
      (∀ p ∈ parts, ∀ c ∈ candidate_skills,
        embedding_map p = none ∨ embedding_map c = none) →
      ∀ (st : BestSt), parts.foldl (considerPart M embedding_map candidate_skills) st = st := by
  intro parts
  induction parts with
  | nil => intro _ st; rfl
  | cons a t ih =>
    intro h st
    simp only [List.foldl_cons]
    have ha : considerPart M embedding_map candidate_skills st a = st := by
      unfold considerPart
      cases hpa : embedding_map a with
      | none => rfl
      | some pe =>
        refine inner_fold_skip M embedding_map pe a candidate_skills ?_ st
        intro c hc
        rcases h a (List.mem_cons_self a t) c hc with hp | hc2
        · rw [hpa] at hp; cases hp
        · exact hc2
    rw [ha]
    exact ih (fun p hp c hc => h p (List.mem_cons_of_mem a hp) c hc) st

/-- C3 (amended): when no (part, candidate) pair has resolvable embeddings
the resolver returns `match = None` and `sim = 0`; and the returned match
is non-`None` whenever some part and some candidate both have embeddings
*and their combined weighted score is strictly positive*.  The claim's
stronger version — resolvable embeddings alone force a non-`None` match —
fails, because the running best score starts at 0 and only strictly greater
scores are recorded, so resolvable pairs whose combined score is ≤ 0 are
never kept. -/
theorem c3_resolvable_match_amended {V : Type} (M : SkillMatcher V)
    (job_skill : Str) (candidate_skills : List Str)
    (embedding_map : Str → Option V) :
    ((∀ p ∈ orParts job_skill, ∀ c ∈ candidate_skills,
        embedding_map p = none ∨ embedding_map c = none) →
      (M.find_best_match job_skill candidate_skills embedding_map).matched = none ∧
      (M.find_best_match job_skill candidate_skills embedding_map).sim = 0) ∧
    (∀ p ∈ orParts job_skill, ∀ c ∈ candidate_skills, ∀ (pe ce : V),
      embedding_map p = some pe → embedding_map c = some ce →
      0 < M.semantic_weight * M.cos_sim pe ce +
          M.lexical_weight * M.normalizer.lexical_similarity M.fuzz p c →
      ((M.find_best_match job_skill candidate_skills embedding_map).matched).isSome = true) := by
  constructor
  · intro h
    unfold SkillMatcher.find_best_match
    rw [outer_fold_skip M embedding_map candidate_skills (orParts job_skill) h]
    exact ⟨rfl, round4_zero⟩
  · intro p hp c hc pe ce hpe hce hpos
    unfold SkillMatcher.find_best_match
    dsimp only
    apply bestSt_pos_isSome
    exact lt_of_lt_of_le hpos
      (outer_fold_reaches M embedding_map candidate_skills hpe hce hc (orParts job_skill) hp _)

/-- A matcher whose external similarity functions return 0 for every pair:
cosine similarity 0 (orthogonal embeddings) and token-set ratio 0 (no
shared tokens). -/
def zeroSimMatcher : SkillMatcher Unit :=
  { trivMatcher with cos_sim := fun _ _ => 0, fuzz := fun _ _ => 0 }

/-- C3 counterexample: the job skill and the candidate skill both have
resolvable embeddings (the embedding map is total), yet the returned
`match` is `None`, because the pair's combined score 0 does not strictly
beat the starting best score 0.  This refutes the claim that a resolvable
pair on both sides forces a non-`None` match. -/
theorem c3_counterexample :
    ((fun (_ : Str) => some ()) "a".data).isSome = true ∧
    ((fun (_ : Str) => some ()) "b".data).isSome = true ∧
    (zeroSimMatcher.find_best_match "a".data ["b".data]
        (fun _ => some ())).matched = none := by
  refine ⟨rfl, rfl, ?_⟩
  unfold SkillMatcher.find_best_match
  have hparts : orParts "a".data = ["a".data] := rfl
  rw [hparts]
  simp only [List.foldl_cons, List.foldl_nil, considerPart, considerCandidate,
    zeroSimMatcher, trivMatcher, TextNormalizer.lexical_similarity]
  norm_num

/-- C3 witness: the amended statement's positive direction instantiated at
the concrete matcher, a total embedding map and identical skill strings
(combined score 1). -/
theorem c3_resolvable_witness :
    ("python".data ∈ orParts "python".data) ∧
    ("python".data ∈ (["python".data] : List Str)) ∧
    ((fun (_ : Str) => some ()) "python".data = some ()) ∧
    (0 < trivMatcher.semantic_weight * trivMatcher.cos_sim () () +
        trivMatcher.lexical_weight *
          trivMatcher.normalizer.lexical_similarity trivMatcher.fuzz "python".data "python".data) ∧
    ((trivMatcher.find_best_match "python".data ["python".data]
        (fun _ => some ())).matched).isSome = true := by
  have hm1 : "python".data ∈ orParts "python".data := by decide
  have hm2 : "python".data ∈ (["python".data] : List Str) := by decide
  have hpos : 0 < trivMatcher.semantic_weight * trivMatcher.cos_sim () () +
      trivMatcher.lexical_weight *
        trivMatcher.normalizer.lexical_similarity trivMatcher.fuzz "python".data "python".data := by
    norm_num [trivMatcher, TextNormalizer.lexical_similarity]
  exact ⟨hm1, hm2, rfl, hpos,
    (c3_resolvable_match_amended trivMatcher "python".data ["python".data]
        (fun _ => some ())).2 "python".data hm1 "python".data hm2 () () rfl rfl hpos⟩

theorem bestSt_bounds {V : Type} (M : SkillMatcher V)
    (embedding_map : Str → Option V) (parts candidate_skills : List Str)
    (hcos : ∀ a b : V, -1 ≤ M.cos_sim a b ∧ M.cos_sim a b ≤ 1)
    (hfuzz : ∀ s t : Str, 0 ≤ M.fuzz s t ∧ M.fuzz s t ≤ 100)
    (hws : 0 ≤ M.semantic_weight) (hwl : 0 ≤ M.lexical_weight) :
    (fun (st : BestSt) =>
        0 ≤ st.best_score ∧ st.best_score ≤ M.semantic_weight + M.lexical_weight ∧
        -1 ≤ st.best_semantic_sim ∧ st.best_semantic_sim ≤ 1 ∧
        0 ≤ st.best_lexical_sim ∧ st.best_lexical_sim ≤ 1)
      (parts.foldl (considerPart M embedding_map candidate_skills) ⟨none, 0, 0, 0⟩) := by
  have hlex : ∀ s t : Str,
      0 ≤ M.normalizer.lexical_similarity M.fuzz s t ∧
      M.normalizer.lexical_similarity M.fuzz s t ≤ 1 := by
    intro s t
    unfold TextNormalizer.lexical_similarity
    constructor
    · exact div_nonneg (hfuzz _ _).1 (by norm_num)
    · rw [div_le_one (by norm_num)]
      exact (hfuzz _ _).2
  have hcand : ∀ (pe : V) (part : Str) (st : BestSt) (c : Str),
      (0 ≤ st.best_score ∧ st.best_score ≤ M.semantic_weight + M.lexical_weight ∧
        -1 ≤ st.best_semantic_sim ∧ st.best_semantic_sim ≤ 1 ∧
        0 ≤ st.best_lexical_sim ∧ st.best_lexical_sim ≤ 1) →
      (0 ≤ (considerCandidate M embedding_map pe part st c).best_score ∧
        (considerCandidate M embedding_map pe part st c).best_score ≤ M.semantic_weight + M.lexical_weight ∧
        -1 ≤ (considerCandidate M embedding_map pe part st c).best_semantic_sim ∧
        (considerCandidate M embedding_map pe part st c).best_semantic_sim ≤ 1 ∧
        0 ≤ (considerCandidate M embedding_map pe part st c).best_lexical_sim ∧
        (considerCandidate M embedding_map pe part st c).best_lexical_sim ≤ 1) := by
    intro pe part st c h
    unfold considerCandidate
    cases embedding_map c with
    | none => exact h
    | some ce =>
      dsimp only
      split
      · next hlt =>
        have hsem := hcos pe ce
        have hl := hlex part c
        refine ⟨le_of_lt (lt_of_le_of_lt h.1 hlt), ?_, hsem.1, hsem.2, hl.1, hl.2⟩
        have h1 : M.semantic_weight * M.cos_sim pe ce ≤ M.semantic_weight * 1 :=
          mul_le_mul_of_nonneg_left hsem.2 hws
        have h2 : M.lexical_weight * M.normalizer.lexical_similarity M.fuzz part c ≤
            M.lexical_weight * 1 := mul_le_mul_of_nonneg_left hl.2 hwl
        show M.semantic_weight * M.cos_sim pe ce +
            M.lexical_weight * M.normalizer.lexical_similarity M.fuzz part c
          ≤ M.semantic_weight + M.lexical_weight
        linarith
      · exact h
  have hpart : ∀ (st : BestSt) (p : Str),
      (0 ≤ st.best_score ∧ st.best_score ≤ M.semantic_weight + M.lexical_weight ∧
        -1 ≤ st.best_semantic_sim ∧ st.best_semantic_sim ≤ 1 ∧
        0 ≤ st.best_lexical_sim ∧ st.best_lexical_sim ≤ 1) →
      (0 ≤ (considerPart M embedding_map candidate_skills st p).best_score ∧
        (considerPart M embedding_map candidate_skills st p).best_score ≤ M.semantic_weight + M.lexical_weight ∧
        -1 ≤ (considerPart M embedding_map candidate_skills st p).best_semantic_sim ∧
        (considerPart M embedding_map candidate_skills st p).best_semantic_sim ≤ 1 ∧
        0 ≤ (considerPart M embedding_map candidate_skills st p).best_lexical_sim ∧
        (considerPart M embedding_map candidate_skills st p).best_lexical_sim ≤ 1) := by
    intro st p h
    unfold considerPart
    cases embedding_map p with
    | none => exact h
    | some pe =>
      exact foldl_preserve _ _ (hcand pe p) candidate_skills st h
  refine foldl_preserve _ _ hpart parts _ ?_
  exact ⟨le_rfl, show (0:ℚ) ≤ M.semantic_weight + M.lexical_weight by linarith,
    by norm_num, by norm_num, le_rfl, by norm_num⟩

/-- C4 (amended): assuming the external primitives respect their ranges
(cosine in [-1,1], token-set ratio in [0,100]) and nonnegative similarity
weights: the recorded `sim` lies in `[0, round4(semantic_weight +
lexical_weight)]` and the lexical component lies in `[0,1]`, but the
semantic component is the *raw, unrescaled* cosine of the winning pair and
is only guaranteed to lie in `[-1,1]` — the code performs no rescaling to
`[0,1]`, so both the semantic component and, when the weights sum to more
than 1, the `sim` value can leave the claimed interval. -/
theorem c4_component_ranges_amended {V : Type} (M : SkillMatcher V)
    (job_skill : Str) (candidate_skills : List Str)
    (embedding_map : Str → Option V)
    (hcos : ∀ a b : V, -1 ≤ M.cos_sim a b ∧ M.cos_sim a b ≤ 1)
    (hfuzz : ∀ s t : Str, 0 ≤ M.fuzz s t ∧ M.fuzz s t ≤ 100)
    (hws : 0 ≤ M.semantic_weight) (hwl : 0 ≤ M.lexical_weight) :
    (0 ≤ (M.find_best_match job_skill candidate_skills embedding_map).sim ∧
      (M.find_best_match job_skill candidate_skills embedding_map).sim
        ≤ round4 (M.semantic_weight + M.lexical_weight)) ∧
    (-1 ≤ (M.find_best_match job_skill candidate_skills embedding_map).components.semantic ∧
      (M.find_best_match job_skill candidate_skills embedding_map).components.semantic ≤ 1) ∧
    (0 ≤ (M.find_best_match job_skill candidate_skills embedding_map).components.lexical ∧
      (M.find_best_match job_skill candidate_skills embedding_map).components.lexical ≤ 1) := by
  have hb := bestSt_bounds M embedding_map (orParts job_skill) candidate_skills hcos hfuzz hws hwl
  obtain ⟨h1, h2, h3, h4, h5, h6⟩ := hb
  unfold SkillMatcher.find_best_match
  dsimp only
  refine ⟨⟨round4_nonneg h1, round4_mono h2⟩, ⟨?_, ?_⟩, ⟨round4_nonneg h5, ?_⟩⟩
  · have := round4_mono h3
    rwa [round4_neg_one] at this
  · have := round4_mono h4
    rwa [round4_one] at this
  · have := round4_mono h6
    rwa [round4_one] at this

/-- A matcher like `trivMatcher` but whose cosine returns a slightly
negative value for every pair (possible for real sentence embeddings). -/
def negCosMatcher : SkillMatcher Unit :=
  { trivMatcher with cos_sim := fun _ _ => -1/10 }

/-- C4 counterexample: with a resolvable pair whose cosine is -0.1 and a
lexical ratio of 100, the combined score 0.23 wins, and the recorded
semantic component is -0.1 — outside the [0,1] interval the claim asserts
for components, because the code records the raw cosine without rescaling. -/
theorem c4_counterexample :
    (negCosMatcher.find_best_match "a".data ["b".data]
        (fun _ => some ())).components.semantic < 0 := by
  have hr4 : round4 (-1/10) = -1/10 := by
    have h := round4_scaled (-1000)
    have he : ((-1000 : ℤ) : ℚ) / 10000 = -1/10 := by norm_num
    rw [he] at h
    exact h
  unfold SkillMatcher.find_best_match
  have hparts : orParts "a".data = ["a".data] := rfl
  rw [hparts]
  simp only [List.foldl_cons, List.foldl_nil, considerPart, considerCandidate,
    negCosMatcher, trivMatcher, TextNormalizer.lexical_similarity]
  rw [if_pos (by norm_num)]
  dsimp only
  rw [hr4]
  norm_num

/-- C4 witness: the amended ranges instantiated at the concrete matcher and
a total embedding map. -/
theorem c4_component_witness :
    (∀ a b : Unit, -1 ≤ trivMatcher.cos_sim a b ∧ trivMatcher.cos_sim a b ≤ 1) ∧
    (∀ s t : Str, 0 ≤ trivMatcher.fuzz s t ∧ trivMatcher.fuzz s t ≤ 100) ∧
    (0 ≤ trivMatcher.semantic_weight) ∧ (0 ≤ trivMatcher.lexical_weight) ∧
    ((0 ≤ (trivMatcher.find_best_match "python".data ["python".data] (fun _ => some ())).sim ∧
      (trivMatcher.find_best_match "python".data ["python".data] (fun _ => some ())).sim
        ≤ round4 (trivMatcher.semantic_weight + trivMatcher.lexical_weight)) ∧
    (-1 ≤ (trivMatcher.find_best_match "python".data ["python".data] (fun _ => some ())).components.semantic ∧
      (trivMatcher.find_best_match "python".data ["python".data] (fun _ => some ())).components.semantic ≤ 1) ∧
    (0 ≤ (trivMatcher.find_best_match "python".data ["python".data] (fun _ => some ())).components.lexical ∧
      (trivMatcher.find_best_match "python".data ["python".data] (fun _ => some ())).components.lexical ≤ 1)) :=
  ⟨fun _ _ => by norm_num [trivMatcher],
   fun _ _ => by norm_num [trivMatcher],
   by norm_num [trivMatcher], by norm_num [trivMatcher],
   c4_component_ranges_amended trivMatcher "python".data ["python".data] (fun _ => some ())
     (fun _ _ => by norm_num [trivMatcher]) (fun _ _ => by norm_num [trivMatcher])
     (by norm_num [trivMatcher]) (by norm_num [trivMatcher])⟩

theorem foldl_id {α β : Type} : ∀ (l : List α) (st : β), l.foldl (fun st _ => st) st = st
  | [], _ => rfl
  | _ :: t, st => foldl_id t st

theorem foldl_flatMap {α β γ : Type} (f : γ → β → γ) (g : α → List β) :
    ∀ (l : List α) (init : γ),
      (l.flatMap g).foldl f init = l.foldl (fun st a => (g a).foldl f st) init
  | [], _ => rfl
  | a :: t, init => by
    simp only [List.flatMap_cons, List.foldl_append, List.foldl_cons]
    exact foldl_flatMap f g t _

theorem considerPart_eq_pairs {V : Type} (M : SkillMatcher V)
    (embedding_map : Str → Option V) (candidate_skills : List Str)
    (st : BestSt) (p : Str) :
    considerPart M embedding_map candidate_skills st p =
      (candidate_skills.map (fun c => (p, c))).foldl (considerPair M embedding_map) st := by
  rw [List.foldl_map]
  unfold considerPart considerPair
  cases hp : embedding_map p with
  | none =>
    simp only [hp]
    exact (foldl_id candidate_skills st).symm
  | some pe =>
    simp only [hp]

/-- C7: a job skill containing the literal `" or "` is split into trimmed
alternative parts; `_find_best_match` is extensionally the spec-side
resolver that scans every (part, candidate) pair in order keeping the
overall best strictly-improving score, and the `skill` field of the result
is the original un-split job skill string verbatim. -/
theorem c7_disjunction {V : Type} (M : SkillMatcher V) (job_skill : Str)
    (candidate_skills : List Str) (embedding_map : Str → Option V)
    (h : 2 ≤ (pySplit " or ".data job_skill).length) :
    (M.find_best_match job_skill candidate_skills embedding_map =
      find_best_match_spec M job_skill candidate_skills embedding_map) ∧
    (M.find_best_match job_skill candidate_skills embedding_map).skill = job_skill := by
  constructor
  · unfold SkillMatcher.find_best_match find_best_match_spec
    dsimp only
    rw [foldl_flatMap]
    have hfold :
        (orParts job_skill).foldl
            (fun st p =>
              (candidate_skills.map (fun c => (p, c))).foldl (considerPair M embedding_map) st)
            (⟨none, 0, 0, 0⟩ : BestSt)
          = (orParts job_skill).foldl (considerPart M embedding_map candidate_skills)
              (⟨none, 0, 0, 0⟩ : BestSt) := by
      refine List.foldl_ext _ _ _ ?_
      intro st p _
      exact (considerPart_eq_pairs M embedding_map candidate_skills st p).symm
    rw [hfold]
  · rfl

/-- C7 witness: the disjunction skill `"Python or R"` with a single
candidate: the resolver agrees with the spec-side pair scan and the
reported skill is the un-split original. -/
theorem c7_disjunction_witness :
    (2 ≤ (pySplit " or ".data "Python or R".data).length) ∧
    (trivMatcher.find_best_match "Python or R".data ["R".data] (fun _ => some ()) =
      find_best_match_spec trivMatcher "Python or R".data ["R".data] (fun _ => some ())) ∧
    (trivMatcher.find_best_match "Python or R".data ["R".data]
        (fun _ => some ())).skill = "Python or R".data :=
  ⟨by decide,
   (c7_disjunction trivMatcher "Python or R".data ["R".data] (fun _ => some ()) (by decide)).1,
   (c7_disjunction trivMatcher "Python or R".data ["R".data] (fun _ => some ()) (by decide)).2⟩

theorem toNat_ofNat_valid (n : Nat) (h : n.isValidChar) : (Char.ofNat n).toNat = n := by
  simp [Char.ofNat, h, Char.ofNatAux, Char.toNat, UInt32.toNat]

theorem pyLowerChar_of_upper {c : Char} (h1 : 65 ≤ c.toNat) (h2 : c.toNat ≤ 90) :
    pyLowerChar c = Char.ofNat (c.toNat + 32) := by
  unfold pyLowerChar
  rw [if_pos]
  simp only [Bool.and_eq_true, decide_eq_true_eq]
  exact ⟨h1, h2⟩

theorem pyLowerChar_of_not_upper {c : Char} (h : ¬(65 ≤ c.toNat ∧ c.toNat ≤ 90)) :
    pyLowerChar c = c := by
  unfold pyLowerChar
  rw [if_neg]
  simpa using h

theorem pyLowerChar_toNat (c : Char) :
    (pyLowerChar c).toNat = if 65 ≤ c.toNat ∧ c.toNat ≤ 90 then c.toNat + 32 else c.toNat := by
  by_cases h : 65 ≤ c.toNat ∧ c.toNat ≤ 90
  · rw [pyLowerChar_of_upper h.1 h.2, toNat_ofNat_valid _ (Or.inl (by omega)), if_pos h]
  · rw [pyLowerChar_of_not_upper h, if_neg h]

theorem pyLowerChar_idem (c : Char) : pyLowerChar (pyLowerChar c) = pyLowerChar c := by
  by_cases h : 65 ≤ c.toNat ∧ c.toNat ≤ 90
  · rw [pyLowerChar_of_upper h.1 h.2]
    apply pyLowerChar_of_not_upper
    rw [toNat_ofNat_valid _ (Or.inl (by omega))]
    omega
  · rw [pyLowerChar_of_not_upper h, pyLowerChar_of_not_upper h]

theorem pyIsSpace_iff (c : Char) : pyIsSpace c = true ↔
    (c.toNat = 32 ∨ c.toNat = 9 ∨ c.toNat = 10 ∨ c.toNat = 13 ∨ c.toNat = 11 ∨ c.toNat = 12) := by
  simp [pyIsSpace]
  tauto

theorem isPunctChar_iff (c : Char) : isPunctChar c = true ↔
    ((33 ≤ c.toNat ∧ c.toNat ≤ 47) ∨ (58 ≤ c.toNat ∧ c.toNat ≤ 64) ∨
      (91 ≤ c.toNat ∧ c.toNat ≤ 96) ∨ (123 ≤ c.toNat ∧ c.toNat ≤ 126)) := by
  simp [isPunctChar]
  tauto

theorem pyIsSpace_pyLowerChar (c : Char) : pyIsSpace (pyLowerChar c) = pyIsSpace c := by
  rw [Bool.eq_iff_iff, pyIsSpace_iff, pyIsSpace_iff, pyLowerChar_toNat]
  split
  · omega
  · exact Iff.rfl

theorem isPunctChar_pyLowerChar (c : Char) : isPunctChar (pyLowerChar c) = isPunctChar c := by
  rw [Bool.eq_iff_iff, isPunctChar_iff, isPunctChar_iff, pyLowerChar_toNat]
  split
  · omega
  · exact Iff.rfl

theorem lowerStr_idem (l : Str) : lowerStr (lowerStr l) = lowerStr l := by
  unfold lowerStr
  rw [List.map_map]
  exact List.map_congr_left (fun a _ => pyLowerChar_idem a)

theorem removePunctStr_idem (l : Str) : removePunctStr (removePunctStr l) = removePunctStr l := by
  unfold removePunctStr
  rw [List.filter_filter]
  congr 1
  funext a
  rw [Bool.and_self]

theorem dropWhile_dropWhile (p : Char → Bool) :
    ∀ (l : Str), (l.dropWhile p).dropWhile p = l.dropWhile p := by
  intro l
  induction l with
  | nil => rfl
  | cons a t ih =>
    rw [List.dropWhile_cons]
    split
    · exact ih
    · next h => rw [List.dropWhile_cons, if_neg h]

theorem head_false_of_dropWhile (p : Char → Bool) :
    ∀ (l : Str) (a : Char), (l.dropWhile p).head? = some a → p a = false := by
  intro l
  induction l with
  | nil => intro a h; cases h
  | cons b t ih =>
    intro a h
    rw [List.dropWhile_cons] at h
    split at h
    · exact ih a h
    · next hb =>
      rw [List.head?_cons] at h
      injection h with h
      subst h
      exact Bool.not_eq_true _ ▸ (by simpa using hb)

theorem getLast?_dropWhile (p : Char → Bool) :
    ∀ (l : Str), l.dropWhile p ≠ [] → (l.dropWhile p).getLast? = l.getLast? := by
  intro l
  induction l with
  | nil => intro h; cases h rfl
  | cons a t ih =>
    intro hne
    rw [List.dropWhile_cons]
    rw [List.dropWhile_cons] at hne
    split
    · next hp =>
      rw [if_pos hp] at hne
      have ht : t ≠ [] := by
        intro h0
        rw [h0] at hne
        exact hne rfl
      rw [ih hne]
      cases t with
      | nil => cases ht rfl
      | cons b t2 => rw [List.getLast?_cons_cons]
    · rfl

theorem dropWhile_stripStr (l : Str) : (stripStr l).dropWhile pyIsSpace = stripStr l := by
  cases hS : stripStr l with
  | nil => rfl
  | cons a s =>
    have h1 : (stripStr l).head? = some a := by rw [hS]; rfl
    unfold stripStr at h1
    rw [List.head?_reverse] at h1
    have hX : ((l.dropWhile pyIsSpace).reverse).dropWhile pyIsSpace ≠ [] := by
      intro h0
      rw [h0] at h1
      cases h1
    rw [getLast?_dropWhile _ _ hX, List.getLast?_reverse] at h1
    have hpa : pyIsSpace a = false := head_false_of_dropWhile pyIsSpace l a h1
    rw [List.dropWhile_cons, if_neg]
    simp [hpa]

theorem stripStr_idem (l : Str) : stripStr (stripStr l) = stripStr l := by
  show (((stripStr l).dropWhile pyIsSpace).reverse.dropWhile pyIsSpace).reverse = stripStr l
  rw [dropWhile_stripStr]
  have h2 : (stripStr l).reverse = ((l.dropWhile pyIsSpace).reverse).dropWhile pyIsSpace := by
    unfold stripStr
    rw [List.reverse_reverse]
  rw [h2, dropWhile_dropWhile, ← h2, List.reverse_reverse]

theorem lowerStr_stripStr (l : Str) : lowerStr (stripStr l) = stripStr (lowerStr l) := by
  have hpf : (pyIsSpace ∘ pyLowerChar) = pyIsSpace := funext pyIsSpace_pyLowerChar
  unfold lowerStr stripStr
  simp only [List.dropWhile_map, hpf, ← List.map_reverse]

theorem lowerStr_removePunctStr (l : Str) :
    lowerStr (removePunctStr l) = removePunctStr (lowerStr l) := by
  have hpf : ((fun c => !isPunctChar c) ∘ pyLowerChar) = (fun c => !isPunctChar c) := by
    funext c
    simp only [Function.comp_apply, isPunctChar_pyLowerChar c]
  unfold lowerStr removePunctStr
  rw [List.filter_map, hpf]

/-- The character-level tail of `TextNormalizer.normalize`: the optional
lowercase, strip and punctuation steps, in source order. -/
def charSteps (cfg : NormalizationConfig) (t : Str) : Str :=
  let afterLower := if cfg.lowercase then lowerStr t else t
  let afterStrip := if cfg.strip_whitespace then stripStr afterLower else afterLower
  if cfg.remove_punctuation then removePunctStr afterStrip else afterStrip

theorem normalize_eq_charSteps (n : TextNormalizer)
    (hacr : n.config.apply_acronyms = false) (hsyn : n.config.apply_synonyms = false)
    (t : Str) : n.normalize t = charSteps n.config t := by
  unfold TextNormalizer.normalize charSteps
  simp only [hacr, hsyn, Bool.false_eq_true, if_false]
  by_cases ht : t = []
  · subst ht
    simp [lowerStr, stripStr, removePunctStr]
  · rw [if_neg ht]

theorem charSteps_idem (cfg : NormalizationConfig)
    (hsp : cfg.strip_whitespace = false ∨ cfg.remove_punctuation = false)
    (t : Str) : charSteps cfg (charSteps cfg t) = charSteps cfg t := by
  unfold charSteps
  cases hlow : cfg.lowercase <;> cases hstrip : cfg.strip_whitespace <;>
    cases hpunct : cfg.remove_punctuation <;>
    simp only [if_true, if_false, Bool.false_eq_true, Bool.true_eq_false]
  · exact removePunctStr_idem t
  · exact stripStr_idem t
  · rw [hstrip, hpunct] at hsp
    rcases hsp with h | h <;> cases h
  · exact lowerStr_idem t
  · rw [lowerStr_removePunctStr, lowerStr_idem, removePunctStr_idem]
  · rw [lowerStr_stripStr, lowerStr_idem, stripStr_idem]
  · rw [hstrip, hpunct] at hsp
    rcases hsp with h | h <;> cases h

/-- C5 (amended): normalization is idempotent whenever the acronym and
synonym steps are disabled and at most one of whitespace-stripping and
punctuation-removal is enabled — the lowercase, strip and punctuation
steps are individually idempotent and lowercase commutes with the other
two.  In general, `normalize` is *not* idempotent: removing punctuation
after stripping can expose fresh leading/trailing whitespace that only a
second pass would strip (and the acronym-expansion step can re-trigger on
its own output for maps whose expansion contains a key). -/
theorem c5_normalize_idempotent_amended (n : TextNormalizer)
    (hacr : n.config.apply_acronyms = false) (hsyn : n.config.apply_synonyms = false)
    (hsp : n.config.strip_whitespace = false ∨ n.config.remove_punctuation = false)
    (s : Str) : n.normalize (n.normalize s) = n.normalize s := by
  rw [normalize_eq_charSteps n hacr hsyn, normalize_eq_charSteps n hacr hsyn]
  exact charSteps_idem n.config hsp s

/-- C5 counterexample: with lowercase, strip and punctuation-removal all
enabled (acronyms and synonyms off, empty maps), normalizing `", a"` gives
`" a"` — stripping happens before punctuation removal, so deleting the
leading comma exposes a leading space that survives — and normalizing a
second time gives `"a"`.  Normalization is not idempotent. -/
theorem c5_counterexample :
    (⟨⟨false, false, true, true, true⟩, [], []⟩ : TextNormalizer).normalize
        ((⟨⟨false, false, true, true, true⟩, [], []⟩ : TextNormalizer).normalize ", a".data)
      ≠ (⟨⟨false, false, true, true, true⟩, [], []⟩ : TextNormalizer).normalize ", a".data := by
  decide

/-- C5 witness: the amended idempotence instantiated at a configuration
with lowercase and strip enabled, punctuation removal disabled, and a
mixed-case padded input. -/
theorem c5_normalize_witness :
    ((⟨⟨false, false, true, true, false⟩, [], []⟩ : TextNormalizer).config.apply_acronyms = false) ∧
    ((⟨⟨false, false, true, true, false⟩, [], []⟩ : TextNormalizer).config.apply_synonyms = false) ∧
    ((⟨⟨false, false, true, true, false⟩, [], []⟩ : TextNormalizer).config.strip_whitespace = false ∨
      (⟨⟨false, false, true, true, false⟩, [], []⟩ : TextNormalizer).config.remove_punctuation = false) ∧
    ((⟨⟨false, false, true, true, false⟩, [], []⟩ : TextNormalizer).normalize
        ((⟨⟨false, false, true, true, false⟩, [], []⟩ : TextNormalizer).normalize "  Python 3  ".data)
      = (⟨⟨false, false, true, true, false⟩, [], []⟩ : TextNormalizer).normalize "  Python 3  ".data) :=
  ⟨rfl, rfl, Or.inr rfl,
   c5_normalize_idempotent_amended ⟨⟨false, false, true, true, false⟩, [], []⟩
     rfl rfl (Or.inr rfl) "  Python 3  ".data⟩
